import Mathlib

/-!
Verification development for the go-tz time-zone compiler.

This file shallowly embeds the Go sources of the repository in Lean 4:
pure functions become Lean functions, Go machine-integer arithmetic is
modelled as mathematical integers with explicit reductions modulo 2^64
where Go wraps, fallible code returns Option or Except, and the
year-walking loop of the transition resolver is modelled with explicit
fuel (a result of Res.timeout for every fuel value means the Go loop
does not terminate).

Go conventions used throughout:
- Go division and remainder on signed integers truncate toward zero;
  they are embedded as Int.tdiv and Int.tmod.
- Go uint64 arithmetic wraps modulo 2^64; it is embedded as Nat
  arithmetic followed by reduction modulo 2^64.
- A conversion between int64 and uint64 reinterprets the two's
  complement bit pattern; it is embedded by goU64OfInt and goIntOfU64.
- An out-of-range slice index panics; functions with such an index
  return Option, with none standing for the panic.
-/

/-- Modulus of Go uint64 arithmetic. -/
def u64Mod : Nat := 18446744073709551616

/-- Go conversion of a signed integer to uint64: reduce the two's
complement value modulo 2^64. -/
def goU64OfInt (x : Int) : Nat := (x % (u64Mod : Int)).toNat

/-- Go conversion of a uint64 bit pattern to int64: values at or above
2^63 become negative. -/
def goIntOfU64 (n : Nat) : Int :=
  if n < 9223372036854775808 then (n : Int) else (n : Int) - (u64Mod : Int)

/-- Go int64 addition result: wrap the mathematical value into the
int64 range. -/
def goWrap64 (x : Int) : Int :=
  (x + 9223372036854775808) % (u64Mod : Int) - 9223372036854775808

namespace tzdata

/-- Go math.MinInt on a 64-bit platform; the tzdata package uses it as
the sentinel year meaning the indefinite past. -/
def MinYear : Int := -9223372036854775808

/-- Go math.MaxInt on a 64-bit platform; the tzdata package uses it as
the sentinel year meaning the indefinite future. -/
def MaxYear : Int := 9223372036854775807

/-- Form of a parsed time of day (package tzdata, type TimeForm). -/
inductive TimeForm where
  | WallClock
  | StandardTime
  | DaylightSavingTime
  | UniversalTime
deriving DecidableEq, Repr

/-- A parsed time of day: the duration since midnight in nanoseconds
(Go time.Duration) together with its form (package tzdata, type Time). -/
structure Time where
  TimeOfDay : Int
  Form : TimeForm
deriving DecidableEq, Repr

/-- Form of the ON column of a rule line (package tzdata, type DayForm). -/
inductive DayForm where
  | DayFormDayNum
  | DayFormLast
  | DayFormAfter
  | DayFormBefore
deriving DecidableEq, Repr

/-- The ON column of a rule line (package tzdata, type Day).  num is the
day-of-month operand, day the weekday operand (Go time.Weekday,
0 = Sunday .. 6 = Saturday). -/
structure Day where
  form : DayForm
  num : Int := 0
  day : Int := 0
deriving DecidableEq, Repr

/-- A parsed rule line (package tzdata, type RuleLine).  Months are Go
time.Month values 1 .. 12 kept as integers. -/
structure RuleLine where
  Name : String
  From : Int
  To : Int
  In : Int
  On : Day
  At : Time
  Save : Time
  Letter : String
deriving DecidableEq, Repr

/-- Form of the RULES column of a zone line (package tzdata,
type ZoneRulesForm). -/
inductive ZoneRulesForm where
  | ZoneRulesStandard
  | ZoneRulesName
  | ZoneRulesTime
deriving DecidableEq, Repr

/-- The RULES column of a zone line (package tzdata, type ZoneRules).
Time is a duration in nanoseconds, present when Form is ZoneRulesTime. -/
structure ZoneRules where
  Form : ZoneRulesForm
  Name : String := ""
  Time : Int := 0
deriving DecidableEq, Repr

/-- Bitmask tracking which parts of an UNTIL column are defined
(package tzdata, type UntilPartsMask). -/
def untilYearOnly : Nat := 1

/-- Bit of the month part of an UNTIL mask. -/
def untilMonthOnly : Nat := 2

/-- Bit of the day part of an UNTIL mask. -/
def untilDayOnly : Nat := 4

/-- Bit of the time part of an UNTIL mask. -/
def untilTimeOnly : Nat := 8

/-- Go method UntilPartsMask.Has: true when the mask intersects the
given parts. -/
def maskHas (p parts : Nat) : Bool := p.land parts != 0

/-- Go method UntilPartsMask.Set: set the given parts in the mask. -/
def maskSet (p parts : Nat) : Nat := p.lor parts

/-- The UNTIL column of a zone line (package tzdata, type Until).  The
zero value mirrors the Go zero value. -/
structure Until where
  Defined : Bool := false
  Parts : Nat := 0
  Year : Int := 0
  Month : Int := 0
  Day : Day := { form := DayForm.DayFormDayNum }
  Time : Time := { TimeOfDay := 0, Form := TimeForm.WallClock }
deriving DecidableEq, Repr

/-- A parsed zone or continuation line (package tzdata, type ZoneLine).
Offset is the STDOFF duration in nanoseconds. -/
structure ZoneLine where
  Continuation : Bool := false
  Name : String := ""
  Offset : Int := 0
  Rules : ZoneRules
  Format : String := ""
  Until : Until := {}
deriving DecidableEq, Repr

/-- A parsed tzdata file restricted to the records the resolver and
compiler consume (package tzdata, type File). -/
structure File where
  RuleLines : List RuleLine := []
  ZoneLines : List ZoneLine := []
deriving Repr

/-- Modelled from the spec: the tzdata snapshot that package tzir is
compiled against gives durations a Seconds method returning whole
seconds as int64; that snapshot is not among the sources, so the method
is modelled as Go integer division of the nanosecond value by 10^9
(truncated toward zero, as Go integer division is). -/
def durSeconds (t : Int) : Int := t.tdiv 1000000000

end tzdata

namespace unixtime

/-- Seconds per minute (package unixtime). -/
def secondsPerMinute : Nat := 60

/-- Seconds per hour (package unixtime). -/
def secondsPerHour : Nat := 60 * secondsPerMinute

/-- Seconds per day (package unixtime). -/
def secondsPerDay : Nat := 24 * secondsPerHour

/-- Days per 400-year Gregorian cycle (package unixtime). -/
def daysPer400Years : Nat := 365 * 400 + 97

/-- Days per 100-year Gregorian cycle (package unixtime). -/
def daysPer100Years : Nat := 365 * 100 + 24

/-- Days per 4-year Gregorian cycle (package unixtime). -/
def daysPer4Years : Nat := 365 * 4 + 1

/-- Year of the absolute zero reference point (package unixtime). -/
def absoluteZeroYear : Int := -292277022399

/-- The internal reference year (package unixtime). -/
def internalYear : Int := 1

/-- Offset from the absolute epoch to the internal epoch in seconds
(package unixtime).  In Go this is the exact constant expression
(absoluteZeroYear - internalYear) * 365.2425 * secondsPerDay, evaluated
in arbitrary-precision constant arithmetic; the division by 10^4 below
is exact. -/
def absoluteToInternal : Int :=
  ((absoluteZeroYear - internalYear) * 3652425 * (secondsPerDay : Int)).tdiv 10000

/-- Offset from the UNIX epoch to the internal epoch in seconds
(package unixtime).  Go constant integer division truncates. -/
def unixToInternal : Int :=
  (1969 * 365 + Int.tdiv 1969 4 - Int.tdiv 1969 100 + Int.tdiv 1969 400) * (secondsPerDay : Int)

/-- Negated unixToInternal (package unixtime). -/
def internalToUnix : Int := -unixToInternal

/-- Go function daysSinceEpoch: days from the absolute epoch to the
start of the given year, computed in uint64 arithmetic by accumulating
400-, 100-, 4- and 1-year cycles.  The initial uint64 conversion of the
int64 difference wraps modulo 2^64 exactly as Go does. -/
def daysSinceEpoch (year : Int) : Nat :=
  let y := goU64OfInt (year - absoluteZeroYear)
  let n := y / 400
  let y := y - 400 * n
  let d := (daysPer400Years * n) % u64Mod
  let n := y / 100
  let y := y - 100 * n
  let d := (d + daysPer100Years * n) % u64Mod
  let n := y / 4
  let y := y - 4 * n
  let d := (d + daysPer4Years * n) % u64Mod
  (d + 365 * y) % u64Mod

/-- The cumulative days-before-month table declared inside
FromDateTime (package unixtime). -/
def daysSinceStartOfYear : List Nat :=
  [0, 31, 59, 90, 120, 151, 181, 212, 243, 273, 304, 334]

/-- Go function FromDateTime: convert a date and time to UNIX seconds.
The table index month-1 is bounds-checked: an index outside the
12-element table makes Go panic, embedded here as none.  All uint64
sums and products are reduced modulo 2^64, and the final int64 addition
wraps, exactly as in Go. -/
def FromDateTime (year month day hour minute second : Int) : Option Int :=
  if month - 1 < 0 then none
  else
    match daysSinceStartOfYear[(month - 1).toNat]? with
    | none => none
    | some dsy =>
      let d := (daysSinceEpoch year + dsy + (goU64OfInt day + u64Mod - 1) % u64Mod) % u64Mod
      let d :=
        if 2 < month ∧ year.tmod 4 = 0 ∧ (year.tmod 100 ≠ 0 ∨ year.tmod 400 = 0) then
          (d + 1) % u64Mod
        else d
      let abs := (d * secondsPerDay + goU64OfInt hour * secondsPerHour
        + goU64OfInt minute * secondsPerMinute + goU64OfInt second) % u64Mod
      some (goWrap64 (goIntOfU64 abs + (absoluteToInternal + internalToUnix)))

end unixtime

namespace tzexpand

/-- Go function isLeapYear (package tzexpand).  The Go remainder on a
possibly negative year truncates toward zero; divisibility by a
positive modulus is unaffected. -/
def isLeapYear (year : Int) : Bool :=
  year.tmod 4 == 0 && (year.tmod 100 != 0 || year.tmod 400 == 0)

/-- Go function daysInMonth (package tzexpand). -/
def daysInMonth (month year : Int) : Int :=
  if month = 2 then
    if isLeapYear year then 29 else 28
  else if month = 4 ∨ month = 6 ∨ month = 9 ∨ month = 11 then 30
  else 31

/-- Go function calculateDayOfWeek (package tzexpand): Zeller's
congruence with Go truncating division and remainder, adjusted so that
0 = Sunday .. 6 = Saturday. -/
def calculateDayOfWeek (day month year : Int) : Int :=
  let p : Int × Int := if month < 3 then (month + 12, year - 1) else (month, year)
  let m := p.1
  let y := p.2
  let k := y.tmod 100
  let j := y.tdiv 100
  let h := (day + Int.tdiv (13 * (m + 1)) 5 + k + k.tdiv 4 + j.tdiv 4 + 5 * j).tmod 7
  (h + 6).tmod 7

/-- Go function lastWeekdayOfMonth (package tzexpand). -/
def lastWeekdayOfMonth (year month weekday : Int) : Int :=
  let lastDay := daysInMonth month year
  let lastDayWeekday := calculateDayOfWeek lastDay month year
  let offset := (lastDayWeekday - weekday + 7).tmod 7
  lastDay - offset

/-- Go function nextWeekday (package tzexpand): first occurrence of the
target weekday on or after the given day, overflowing into the next
month or year. -/
def nextWeekday (year month day targetWeekday : Int) : Int × Int × Int :=
  let dayOfWeek := calculateDayOfWeek day month year
  let diff := targetWeekday - dayOfWeek
  let diff := if diff < 0 then diff + 7 else diff
  let nextOccurrence := day + diff
  let daysInCurrentMonth := daysInMonth month year
  if nextOccurrence > daysInCurrentMonth then
    let nextOccurrence := nextOccurrence - daysInCurrentMonth
    let month := month + 1
    if month > 12 then (year + 1, 1, nextOccurrence)
    else (year, month, nextOccurrence)
  else (year, month, nextOccurrence)

/-- Go function lastWeekday (package tzexpand): last occurrence of the
target weekday on or before the given day, underflowing into the
previous month or year. -/
def lastWeekday (year month day targetWeekday : Int) : Int × Int × Int :=
  let dayOfWeek := calculateDayOfWeek day month year
  let diff := dayOfWeek - targetWeekday
  let diff := if diff < 0 then diff + 7 else diff
  let lastOccurrence := day - diff
  if lastOccurrence < 1 then
    let month := month - 1
    let p : Int × Int := if month < 1 then (12, year - 1) else (month, year)
    let daysInPreviousMonth := daysInMonth p.1 p.2
    (p.2, p.1, daysInPreviousMonth + lastOccurrence)
  else (year, month, lastOccurrence)

/-- Go function DayOfMonth (package tzexpand): resolve the four ON-day
forms to a concrete date.  The Go panic branch for an invalid form is
unreachable here because DayForm is a closed enumeration. -/
def DayOfMonth (year : Int) (month : Int) (d : tzdata.Day) : Int × Int × Int :=
  match d.form with
  | tzdata.DayForm.DayFormDayNum => (year, month, d.num)
  | tzdata.DayForm.DayFormLast => (year, month, lastWeekdayOfMonth year month d.day)
  | tzdata.DayForm.DayFormAfter => nextWeekday year month d.num d.day
  | tzdata.DayForm.DayFormBefore => lastWeekday year month d.num d.day

/-- Go function earliest (package tzexpand): fill the undefined parts
of an UNTIL column with their earliest possible values. -/
def earliest (u : tzdata.Until) : tzdata.Until :=
  if !u.Defined then u
  else
    let u :=
      if !tzdata.maskHas u.Parts tzdata.untilMonthOnly then
        { u with Month := 1, Parts := tzdata.maskSet u.Parts tzdata.untilMonthOnly }
      else u
    let u :=
      if tzdata.maskHas u.Parts tzdata.untilDayOnly then
        if u.Day.form ≠ tzdata.DayForm.DayFormDayNum then
          let r := DayOfMonth u.Year u.Month u.Day
          { u with Year := r.1, Month := r.2.1,
                   Day := { form := tzdata.DayForm.DayFormDayNum, num := r.2.2 } }
        else u
      else
        { u with Day := { form := tzdata.DayForm.DayFormDayNum, num := 1 },
                 Parts := tzdata.maskSet u.Parts tzdata.untilDayOnly }
    if !tzdata.maskHas u.Parts tzdata.untilTimeOnly then
      { u with Time := { TimeOfDay := 0, Form := tzdata.TimeForm.WallClock },
               Parts := tzdata.maskSet u.Parts tzdata.untilTimeOnly }
    else u

/-- Go function Earliest (package tzexpand): UNIX seconds of the
earliest instant covered by an UNTIL column.  The hour, minute and
second arguments are obtained by dividing the whole duration by an
hour, a minute and a second respectively, exactly as the Go code does. -/
def Earliest (u : tzdata.Until) : Option Int :=
  let e := earliest u
  let hours := e.Time.TimeOfDay.tdiv 3600000000000
  let minutes := e.Time.TimeOfDay.tdiv 60000000000
  let seconds := e.Time.TimeOfDay.tdiv 1000000000
  unixtime.FromDateTime e.Year e.Month e.Day.num hours minutes seconds

end tzexpand

/-- Result of running an embedded Go computation with fuel:
Res.timeout means the fuel ran out (and, when it holds for every fuel
value, that the Go loop does not terminate), Res.panicked mirrors a Go
runtime panic, and Res.ret carries the Go return value. -/
inductive Res (α : Type) where
  | timeout
  | panicked
  | ret (v : α)
deriving DecidableEq, Repr

namespace tzdata

/-- The Go zero value of a RuleLine. -/
def zeroRuleLine : RuleLine :=
  { Name := "", From := 0, To := 0, In := 0,
    On := { form := DayForm.DayFormDayNum },
    At := { TimeOfDay := 0, Form := TimeForm.WallClock },
    Save := { TimeOfDay := 0, Form := TimeForm.WallClock },
    Letter := "" }

end tzdata

namespace tzir

/-- A resolver transition (package tzir, type Transition). -/
structure Transition where
  Rule : tzdata.RuleLine
  UTOccY : Int
  UTOcc : Int
  Occ : Int
  Off : Int
  Dst : Bool
  Desig : String
deriving DecidableEq, Repr

/-- The Go zero value of a Transition. -/
def zeroTransition : Transition :=
  { Rule := tzdata.zeroRuleLine, UTOccY := 0, UTOcc := 0, Occ := 0,
    Off := 0, Dst := false, Desig := "" }

/-- A resolved zone (package tzir, type Zone). -/
structure Zone where
  Line : tzdata.ZoneLine
  Transitions : List Transition := []
  Expires : Bool := false
  ExpiresAt : Int := 0
  Final : List Transition := []
  FirstStdTransition : Transition := zeroTransition
  HasStdTransition : Bool := false
deriving DecidableEq, Repr

/-- Character-level scan for the two-character marker percent-s, the
occurrence test of Go strings.Contains specialized to that pattern. -/
def containsPercentS : List Char → Bool
  | [] => false
  | '%' :: 's' :: _ => true
  | _ :: t => containsPercentS t

/-- Character-level replacement of every non-overlapping occurrence of
the marker percent-s, left to right, the effect of Go
strings.ReplaceAll specialized to that pattern. -/
def replacePercentS (letter : List Char) : List Char → List Char
  | [] => []
  | '%' :: 's' :: t => letter ++ replacePercentS letter t
  | c :: t => c :: replacePercentS letter t

/-- Go function designation (package tzir): when the format contains
the percent-s marker, replace every occurrence of it with the letter. -/
def designation (format letter : String) : String :=
  if containsPercentS format.toList then
    String.mk (replacePercentS letter.toList format.toList)
  else format

/-- Go function ruleOffset (package tzir): zone standard offset plus
the rule's SAVE, in whole seconds. -/
def ruleOffset (z : tzdata.ZoneLine) (r : tzdata.RuleLine) : Int :=
  tzdata.durSeconds z.Offset + tzdata.durSeconds r.Save.TimeOfDay

/-- Go function validForever (package tzir): an undefined UNTIL and
every active rule extending to the indefinite future. -/
def validForever (z : tzdata.ZoneLine) (rs : List tzdata.RuleLine) : Bool :=
  if z.Until.Defined then false
  else rs.all (fun r => r.To == tzdata.MaxYear)

/-- Go function firstYear (package tzir): minimum FROM year of the
rule set, 0 for an empty set. -/
def firstYear (rs : List tzdata.RuleLine) : Int :=
  match rs with
  | [] => 0
  | r :: rest => rest.foldl (fun y r2 => min y r2.From) r.From

/-- Go function activeRules (package tzir): the rules whose year range
contains the given year. -/
def activeRules (rs : List tzdata.RuleLine) (year : Int) : List tzdata.RuleLine :=
  rs.filter (fun r => decide (r.From ≤ year ∧ year ≤ r.To))

/-- Go function splitTime (package tzir): the Go code divides the whole
duration by an hour, by a minute and by a second, so it returns the
total hours, total minutes and total seconds of the duration rather
than a clock decomposition. -/
def splitTime (t : Int) : Int × Int × Int :=
  (t.tdiv 3600000000000, t.tdiv 60000000000, t.tdiv 1000000000)

/-- Go function ruleOccurrenceIn (package tzir): expand the rule's day
in the given year and convert it with the components produced by
splitTime. -/
def ruleOccurrenceIn (r : tzdata.RuleLine) (year : Int) : Option Int :=
  let e := tzexpand.DayOfMonth year r.In r.On
  let s := splitTime r.At.TimeOfDay
  unixtime.FromDateTime e.1 e.2.1 e.2.2 s.1 s.2.1 s.2.2

/-- Go function findRules (package tzir): all rule lines with the given
name, an error when there are none. -/
def findRules (l : List tzdata.RuleLine) (name : String) : Except String (List tzdata.RuleLine) :=
  let rules := l.filter (fun r => r.Name == name)
  if rules.isEmpty then Except.error ("no rules found for name " ++ name)
  else Except.ok rules

/-- Insertion of a transition into a list sorted by universal-time
occurrence. -/
def insertByUTOcc (t : Transition) : List Transition → List Transition
  | [] => [t]
  | u :: us => if t.UTOcc < u.UTOcc then t :: u :: us else u :: insertByUTOcc t us

/-- Sorting used for the Go call sort.Slice with the comparator on
UTOcc.  Go guarantees only that the result is sorted by the comparator
and makes no stability promise; every input on which this development
evaluates the resolver has pairwise distinct UTOcc keys, where all
correct sorts coincide with this insertion sort. -/
def sortByUTOcc (ts : List Transition) : List Transition :=
  ts.foldr insertByUTOcc []

/-- The transition loop inside processZoneYear (package tzir): assign
each sorted candidate its real occurrence by subtracting the offset in
effect before it, update the offset, and cut the year short when the
zone's UNTIL is exceeded.  none stands for a Go panic inside the UNTIL
expansion. -/
def zoneYearFold (z : tzdata.ZoneLine) :
    List Transition → List Transition → Int → Option (List Transition × Int × Bool × Int)
  | [], actual, offset => some (actual, offset, false, 0)
  | t :: rest, actual, offset =>
    let t := { t with Occ := t.UTOcc - offset }
    let offset := t.Off
    if z.Until.Defined then
      match tzexpand.Earliest z.Until with
      | none => none
      | some u =>
        let u := u - offset + tzdata.durSeconds z.Offset
        if t.Occ > u then some (actual, offset, true, u)
        else zoneYearFold z rest (actual ++ [t]) offset
    else zoneYearFold z rest (actual ++ [t]) offset

/-- Go function processZoneYear (package tzir): build the year's
candidate transitions, sort them by universal-time occurrence, then run
the transition loop.  none stands for a Go panic. -/
def processZoneYear (z : tzdata.ZoneLine) (y : Int) (ars : List tzdata.RuleLine)
    (offset : Int) : Option (List Transition × Int × Bool × Int) := do
  let all ← ars.mapM (fun r => do
    let utocc ← ruleOccurrenceIn r y
    pure { Rule := r, UTOccY := y, UTOcc := utocc, Occ := 0,
           Off := ruleOffset z r,
           Dst := decide (r.Save.Form = tzdata.TimeForm.DaylightSavingTime),
           Desig := designation z.Format r.Letter : Transition })
  zoneYearFold z (sortByUTOcc all) [] offset

/-- The year-walking loop of Go function processZone (package tzir),
with explicit fuel.  Each iteration processes one year, records the
first standard-time transition, and either returns (final rule set
reached, zone expired, or the y = 9999 safety check fired) or advances
to the next year. -/
def processZoneLoop (z : tzdata.ZoneLine) (rs : List tzdata.RuleLine)
    (irz : Zone) (activeOffset : Int) (y : Int) : Nat → Res (Except String Zone)
  | 0 => Res.timeout
  | fuel + 1 =>
    let ars := activeRules rs y
    match processZoneYear z y ars activeOffset with
    | none => Res.panicked
    | some (transitions, newOffset, zoneExpired, zoneExpiredAt) =>
      let irz := { irz with Transitions := irz.Transitions ++ transitions }
      let irz :=
        if !irz.HasStdTransition then
          match transitions.find? (fun t => !t.Dst) with
          | some t => { irz with FirstStdTransition := t, HasStdTransition := true }
          | none => irz
        else irz
      if validForever z ars then Res.ret (Except.ok irz)
      else if zoneExpired then
        Res.ret (Except.ok { irz with Expires := true, ExpiresAt := zoneExpiredAt })
      else
        let y := y + 1
        if y = 9999 then Res.ret (Except.error "error: y = 9999")
        else processZoneLoop z rs irz newOffset y fuel

/-- Go function processZone (package tzir): zones whose RULES column is
standard time or a fixed time get a synthesized initial record and no
transitions; zones with a named rule set look the rules up and walk
years starting at the smallest FROM year. -/
def processZone (f : tzdata.File) (z : tzdata.ZoneLine) (activeOffset : Int)
    (fuel : Nat) : Res (Except String Zone) :=
  if z.Rules.Form = tzdata.ZoneRulesForm.ZoneRulesStandard
      ∨ z.Rules.Form = tzdata.ZoneRulesForm.ZoneRulesTime then
    Res.ret (Except.ok
      { Line := z, Transitions := [],
        FirstStdTransition :=
          { Rule := tzdata.zeroRuleLine, UTOccY := 0, UTOcc := 0, Occ := 0,
            Off := tzdata.durSeconds z.Rules.Time + tzdata.durSeconds z.Offset,
            Dst := decide (z.Rules.Form = tzdata.ZoneRulesForm.ZoneRulesTime),
            Desig := designation z.Format "" },
        HasStdTransition := true })
  else if z.Rules.Form ≠ tzdata.ZoneRulesForm.ZoneRulesName then
    Res.ret (Except.error "cant handle zone rules form")
  else
    match findRules f.RuleLines z.Rules.Name with
    | Except.error e => Res.ret (Except.error e)
    | Except.ok rs => processZoneLoop z rs { Line := z } activeOffset (firstYear rs) fuel

/-- The loop of Go function Process (package tzir): resolve the zone
lines in order, stopping at the first error; the zones resolved so far
are returned alongside the error.  Process declares the cross-zone
activeOffset variable but never reassigns it, so every zone receives 0. -/
def processList (f : tzdata.File) (fuel : Nat) :
    List tzdata.ZoneLine → List Zone → Res (List Zone × Option String)
  | [], zones => Res.ret (zones, none)
  | z :: rest, zones =>
    match processZone f z 0 fuel with
    | Res.timeout => Res.timeout
    | Res.panicked => Res.panicked
    | Res.ret (Except.error e) => Res.ret (zones, some e)
    | Res.ret (Except.ok irz) => processList f fuel rest (zones ++ [irz])

/-- Go function Process (package tzir). -/
def Process (f : tzdata.File) (zs : List tzdata.ZoneLine) (fuel : Nat) :
    Res (List Zone × Option String) :=
  processList f fuel zs []

end tzir

namespace tzdata

/-- Go whitespace predicate of unicode.IsSpace restricted to ASCII:
space, tab, newline, vertical tab, form feed, carriage return.  All
inputs considered in this development are ASCII. -/
def isGoSpace (c : Char) : Bool :=
  c = ' ' ∨ c = '\t' ∨ c = '\n' ∨ c = '\x0b' ∨ c = '\x0c' ∨ c = '\r'

/-- The field accumulation loop of Go strings.Fields: split on runs of
whitespace.  The current field is accumulated in reverse. -/
def goFieldsAux : List Char → List Char → List String
  | [], [] => []
  | [], cur => [String.mk cur.reverse]
  | c :: rest, cur =>
    if isGoSpace c then
      if cur.isEmpty then goFieldsAux rest []
      else String.mk cur.reverse :: goFieldsAux rest []
    else goFieldsAux rest (c :: cur)

/-- Go function splitLine (package tzdata): cut the line at the first
sharp character, trim surrounding whitespace, and split the remainder
on whitespace.  The Go function always returns a nil error, so the
embedding returns the field list alone; a comment-only or blank line
yields the empty list. -/
def splitLine (line : String) : List String :=
  let cs := line.toList.takeWhile (fun c => c ≠ '#')
  let cs := ((cs.dropWhile isGoSpace).reverse.dropWhile isGoSpace).reverse
  if cs.isEmpty then [] else goFieldsAux cs []

end tzdata

namespace tzif

/-- TZif version byte (package tzif): V1 is 0. -/
def V1 : Nat := 0

/-- TZif version byte of a version 2 file, ASCII digit two. -/
def V2 : Nat := 50

/-- A TZif header (package tzif, type Header).  The 15 reserved zero
bytes play no role in validation and are not modelled.  The six counts
are uint32 values; only their comparisons with list lengths matter
here, so they are kept as naturals. -/
structure Header where
  Version : Nat := 0
  Isutcnt : Nat := 0
  Isstdcnt : Nat := 0
  Leapcnt : Nat := 0
  Timecnt : Nat := 0
  Typecnt : Nat := 0
  Charcnt : Nat := 0
deriving DecidableEq, Repr

/-- A local time type record (package tzif, type LocalTimeTypeRecord). -/
structure LocalTimeTypeRecord where
  Utoff : Int := 0
  Dst : Bool := false
  Idx : Nat := 0
deriving DecidableEq, Repr

/-- A v1 leap-second record (package tzif, type V1LeapSecondRecord). -/
structure V1LeapSecondRecord where
  Occur : Int := 0
  Corr : Int := 0
deriving DecidableEq, Repr

/-- A v2 leap-second record (package tzif, type V2LeapSecondRecord). -/
structure V2LeapSecondRecord where
  Occur : Int := 0
  Corr : Int := 0
deriving DecidableEq, Repr

/-- A v1 data block (package tzif, type V1DataBlock).  Transition times
are int32 values, designations are bytes. -/
structure V1DataBlock where
  TransitionTimes : List Int := []
  TransitionTypes : List Nat := []
  LocalTimeTypeRecord : List LocalTimeTypeRecord := []
  TimeZoneDesignation : List Nat := []
  LeapSecondRecords : List V1LeapSecondRecord := []
  StandardWallIndicators : List Bool := []
  UTLocalIndicators : List Bool := []
deriving DecidableEq, Repr

/-- A v2 data block (package tzif, type V2DataBlock).  Transition times
are int64 values. -/
structure V2DataBlock where
  TransitionTimes : List Int := []
  TransitionTypes : List Nat := []
  LocalTimeTypeRecord : List LocalTimeTypeRecord := []
  TimeZoneDesignation : List Nat := []
  LeapSecondRecords : List V2LeapSecondRecord := []
  StandardWallIndicators : List Bool := []
  UTLocalIndicators : List Bool := []
deriving DecidableEq, Repr

/-- A TZif footer (package tzif, type Footer). -/
structure Footer where
  TZString : List Nat := []
deriving DecidableEq, Repr

/-- A decoded TZif file (package tzif, type Data). -/
structure Data where
  Version : Nat := 0
  V1Header : Header := {}
  V1Data : V1DataBlock := {}
  V2Header : Header := {}
  V2Data : V2DataBlock := {}
  V2Footer : Footer := {}
deriving DecidableEq, Repr

/-- One identifier per error that Validate (package tzif) can append;
the identifier stands for the formatted Go error value. -/
inductive VErr where
  | versionMismatch
  | v1IsutcntRange
  | v1IsutcntData
  | v1IsstdcntRange
  | v1IsstdcntData
  | v1LeapcntData
  | v1TimecntData
  | v1TransitionsMismatch
  | v1TypecntZero
  | v1TypecntData
  | v1CharcntZero
  | v1CharcntData
  | v1MissingNul
  | v2IsutcntRange
  | v2IsutcntData
  | v2IsstdcntRange
  | v2IsstdcntData
  | v2LeapcntData
  | v2TimecntData
  | v2TransitionsMismatch
  | v2TypecntZero
  | v2TypecntData
  | v2CharcntZero
  | v2CharcntData
  | v2MissingNul
deriving DecidableEq, Repr

/-- Go function validateV1 (package tzif): the list of v1 errors in the
order the Go code appends them.  The final designation check indexes
the last designation byte only when charcnt is positive; when the
designation array is then empty the Go indexing panics, embedded as
none. -/
def validateV1 (d : Data) : Option (List VErr) :=
  let header := d.V1Header
  let data := d.V1Data
  let errs : List VErr :=
    (if header.Isutcnt ≠ 0 ∧ header.Isutcnt ≠ header.Typecnt then [VErr.v1IsutcntRange] else [])
    ++ (if data.UTLocalIndicators.length ≠ header.Isutcnt then [VErr.v1IsutcntData] else [])
    ++ (if header.Isstdcnt ≠ 0 ∧ header.Isstdcnt ≠ header.Typecnt then [VErr.v1IsstdcntRange] else [])
    ++ (if data.StandardWallIndicators.length ≠ header.Isstdcnt then [VErr.v1IsstdcntData] else [])
    ++ (if data.LeapSecondRecords.length ≠ header.Leapcnt then [VErr.v1LeapcntData] else [])
    ++ (if data.TransitionTimes.length ≠ header.Timecnt then [VErr.v1TimecntData] else [])
    ++ (if data.TransitionTimes.length ≠ data.TransitionTypes.length then [VErr.v1TransitionsMismatch] else [])
    ++ (if header.Typecnt = 0 then [VErr.v1TypecntZero] else [])
    ++ (if data.LocalTimeTypeRecord.length ≠ header.Typecnt then [VErr.v1TypecntData] else [])
    ++ (if header.Charcnt = 0 then [VErr.v1CharcntZero] else [])
    ++ (if data.TimeZoneDesignation.length ≠ header.Charcnt then [VErr.v1CharcntData] else [])
  if 0 < header.Charcnt then
    match data.TimeZoneDesignation.getLast? with
    | none => none
    | some b => some (errs ++ (if b ≠ 0 then [VErr.v1MissingNul] else []))
  else some errs

/-- Go function validateV2 (package tzif): the v2 counterpart of
validateV1, on the v2 header and data block. -/
def validateV2 (d : Data) : Option (List VErr) :=
  let header := d.V2Header
  let data := d.V2Data
  let errs : List VErr :=
    (if header.Isutcnt ≠ 0 ∧ header.Isutcnt ≠ header.Typecnt then [VErr.v2IsutcntRange] else [])
    ++ (if data.UTLocalIndicators.length ≠ header.Isutcnt then [VErr.v2IsutcntData] else [])
    ++ (if header.Isstdcnt ≠ 0 ∧ header.Isstdcnt ≠ header.Typecnt then [VErr.v2IsstdcntRange] else [])
    ++ (if data.StandardWallIndicators.length ≠ header.Isstdcnt then [VErr.v2IsstdcntData] else [])
    ++ (if data.LeapSecondRecords.length ≠ header.Leapcnt then [VErr.v2LeapcntData] else [])
    ++ (if data.TransitionTimes.length ≠ header.Timecnt then [VErr.v2TimecntData] else [])
    ++ (if data.TransitionTimes.length ≠ data.TransitionTypes.length then [VErr.v2TransitionsMismatch] else [])
    ++ (if header.Typecnt = 0 then [VErr.v2TypecntZero] else [])
    ++ (if data.LocalTimeTypeRecord.length ≠ header.Typecnt then [VErr.v2TypecntData] else [])
    ++ (if header.Charcnt = 0 then [VErr.v2CharcntZero] else [])
    ++ (if data.TimeZoneDesignation.length ≠ header.Charcnt then [VErr.v2CharcntData] else [])
  if 0 < header.Charcnt then
    match data.TimeZoneDesignation.getLast? with
    | none => none
    | some b => some (errs ++ (if b ≠ 0 then [VErr.v2MissingNul] else []))
  else some errs

/-- Go function Validate (package tzif): version consistency, then the
v1 checks, then the v2 checks when the version is above V1; the result
of the Go errors.Join is nil exactly when the collected list is empty.
none stands for a panic inside either block validator. -/
def Validate (d : Data) : Option (List VErr) :=
  let vers :=
    if d.Version ≠ d.V1Header.Version ∨ d.V1Header.Version ≠ d.V2Header.Version then
      [VErr.versionMismatch]
    else []
  match validateV1 d with
  | none => none
  | some e1 =>
    if V1 < d.Version then
      match validateV2 d with
      | none => none
      | some e2 => some (vers ++ e1 ++ e2)
    else some (vers ++ e1)

/-- The violated v1 conditions of the amended claim, one entry per
condition, written from the claim's wording: the count conditions, the
header-to-data length conditions, the transition times-to-types length
condition, and the designation-not-ending-in-NUL condition. -/
def claimViolationsV1 (d : Data) : List VErr :=
  (if d.V1Header.Isutcnt ≠ 0 ∧ d.V1Header.Isutcnt ≠ d.V1Header.Typecnt then [VErr.v1IsutcntRange] else [])
  ++ (if d.V1Data.UTLocalIndicators.length ≠ d.V1Header.Isutcnt then [VErr.v1IsutcntData] else [])
  ++ (if d.V1Header.Isstdcnt ≠ 0 ∧ d.V1Header.Isstdcnt ≠ d.V1Header.Typecnt then [VErr.v1IsstdcntRange] else [])
  ++ (if d.V1Data.StandardWallIndicators.length ≠ d.V1Header.Isstdcnt then [VErr.v1IsstdcntData] else [])
  ++ (if d.V1Data.LeapSecondRecords.length ≠ d.V1Header.Leapcnt then [VErr.v1LeapcntData] else [])
  ++ (if d.V1Data.TransitionTimes.length ≠ d.V1Header.Timecnt then [VErr.v1TimecntData] else [])
  ++ (if d.V1Data.TransitionTimes.length ≠ d.V1Data.TransitionTypes.length then [VErr.v1TransitionsMismatch] else [])
  ++ (if d.V1Header.Typecnt = 0 then [VErr.v1TypecntZero] else [])
  ++ (if d.V1Data.LocalTimeTypeRecord.length ≠ d.V1Header.Typecnt then [VErr.v1TypecntData] else [])
  ++ (if d.V1Header.Charcnt = 0 then [VErr.v1CharcntZero] else [])
  ++ (if d.V1Data.TimeZoneDesignation.length ≠ d.V1Header.Charcnt then [VErr.v1CharcntData] else [])
  ++ (if 0 < d.V1Header.Charcnt ∧ d.V1Data.TimeZoneDesignation.getLast? ≠ some 0 then [VErr.v1MissingNul] else [])

/-- The violated v2 conditions of the amended claim, the v2 counterpart
of claimViolationsV1. -/
def claimViolationsV2 (d : Data) : List VErr :=
  (if d.V2Header.Isutcnt ≠ 0 ∧ d.V2Header.Isutcnt ≠ d.V2Header.Typecnt then [VErr.v2IsutcntRange] else [])
  ++ (if d.V2Data.UTLocalIndicators.length ≠ d.V2Header.Isutcnt then [VErr.v2IsutcntData] else [])
  ++ (if d.V2Header.Isstdcnt ≠ 0 ∧ d.V2Header.Isstdcnt ≠ d.V2Header.Typecnt then [VErr.v2IsstdcntRange] else [])
  ++ (if d.V2Data.StandardWallIndicators.length ≠ d.V2Header.Isstdcnt then [VErr.v2IsstdcntData] else [])
  ++ (if d.V2Data.LeapSecondRecords.length ≠ d.V2Header.Leapcnt then [VErr.v2LeapcntData] else [])
  ++ (if d.V2Data.TransitionTimes.length ≠ d.V2Header.Timecnt then [VErr.v2TimecntData] else [])
  ++ (if d.V2Data.TransitionTimes.length ≠ d.V2Data.TransitionTypes.length then [VErr.v2TransitionsMismatch] else [])
  ++ (if d.V2Header.Typecnt = 0 then [VErr.v2TypecntZero] else [])
  ++ (if d.V2Data.LocalTimeTypeRecord.length ≠ d.V2Header.Typecnt then [VErr.v2TypecntData] else [])
  ++ (if d.V2Header.Charcnt = 0 then [VErr.v2CharcntZero] else [])
  ++ (if d.V2Data.TimeZoneDesignation.length ≠ d.V2Header.Charcnt then [VErr.v2CharcntData] else [])
  ++ (if 0 < d.V2Header.Charcnt ∧ d.V2Data.TimeZoneDesignation.getLast? ≠ some 0 then [VErr.v2MissingNul] else [])

/-- The violated conditions of the amended claim, one entry per
condition: the version-consistency condition, the v1 conditions, and
the v2 conditions when the version is above V1. -/
def claimViolations (d : Data) : List VErr :=
  (if d.Version ≠ d.V1Header.Version ∨ d.V1Header.Version ≠ d.V2Header.Version then
    [VErr.versionMismatch] else [])
  ++ claimViolationsV1 d
  ++ (if V1 < d.Version then claimViolationsV2 d else [])

end tzif

namespace tzc

/-- Whether the second list starts with the first list, the matching
loop behind Go bytes.Index. -/
def patternAtHead : List Nat → List Nat → Bool
  | [], _ => true
  | _ :: _, [] => false
  | p :: ps, c :: cs => p == c && patternAtHead ps cs

/-- Go bytes.Index restricted to what appendDesignation needs: the
index of the first occurrence of the pattern in the buffer, none when
the pattern does not occur. -/
def bytesIndex (pat : List Nat) : List Nat → Option Nat
  | [] => if patternAtHead pat [] then some 0 else none
  | c :: t =>
    if patternAtHead pat (c :: t) then some 0
    else (bytesIndex pat t).map (· + 1)

/-- Go function appendDesignation (package tzc): when the
NUL-terminated designation already occurs in the pool, return the pool
unchanged together with the first occurrence index converted to a
single byte (Go uint8 conversion reduces modulo 256); otherwise append
the designation NUL-terminated and return the old length, likewise
reduced modulo 256. -/
def appendDesignation (designations : List Nat) (desig : List Nat) : List Nat × Nat :=
  match bytesIndex (desig ++ [0]) designations with
  | some idx => (designations, idx % 256)
  | none => (designations ++ desig ++ [0], designations.length % 256)

/-- Byte list of an ASCII string. -/
def strBytes (s : String) : List Nat := s.toList.map Char.toNat

/-- Modelled from the spec: the builder type used by compileZone is not
among the sources (only its call sites are).  Following the statements
of compileZone and the spec's encoder section, the builder collects the
designation pool with suffix reuse, an initial local-time-type record,
and the transition times of expiring zones followed by the transition
to the next zone's initial record; the v2 header counts are derived
from the data and the v1 block is left as the minimal stub.  The three
error paths of compileZone are mirrored exactly: no initial record,
a final zone that expires, and a successor without one. -/
def buildTransitions (irzs : List tzir.Zone) : Except String (List Int) :=
  match irzs with
  | [] => Except.ok []
  | z :: rest =>
    if z.Expires then
      match rest with
      | [] => Except.error "final zone must not expire"
      | next :: _ =>
        if !next.HasStdTransition then
          Except.error "zone without standard time transition"
        else
          match buildTransitions rest with
          | Except.error e => Except.error e
          | Except.ok ts =>
            Except.ok ((z.Transitions.map (·.Occ) ++ [z.ExpiresAt]) ++ ts)
    else
      match buildTransitions rest with
      | Except.error e => Except.error e
      | Except.ok ts => Except.ok ts

/-- Modelled from the spec: the designation-pool pass of compileZone,
which adds designations in order of appearance; expiring zones
contribute every transition's designation, the final zone only its
first. -/
def buildPool (irzs : List tzir.Zone) : List Nat :=
  irzs.foldl (fun pool z =>
    if z.Expires then
      z.Transitions.foldl (fun p t => (appendDesignation p (strBytes t.Desig)).1) pool
    else
      match z.Transitions with
      | [] => pool
      | t :: _ => (appendDesignation pool (strBytes t.Desig)).1) []

/-- Modelled from the spec: assembly of the TZif structure by the
builder, mirroring the remaining statements of compileZone (initial
record first, transition times, derived v2 header counts, placeholder
footer, minimal v1 stub). -/
def buildZone (irzs : List tzir.Zone) : Except String tzif.Data :=
  match irzs with
  | [] => Except.error "no zones found"
  | z0 :: _ =>
    if !z0.HasStdTransition then Except.error "unable to determine initial record"
    else
      let pool := buildPool irzs
      let init := z0.FirstStdTransition
      let poolInit := appendDesignation pool (strBytes init.Desig)
      let rec0 : tzif.LocalTimeTypeRecord :=
        { Utoff := init.Off, Dst := init.Dst, Idx := poolInit.2 }
      match buildTransitions irzs with
      | Except.error e => Except.error e
      | Except.ok ts =>
        let ts :=
          match ts with
          | [] =>
            match z0.Transitions with
            | [] => []
            | t :: _ => [t.Occ - init.Off]
          | first :: rest => (first - init.Off) :: rest
        let v2 : tzif.V2DataBlock :=
          { TransitionTimes := ts,
            TransitionTypes := List.replicate ts.length 0,
            LocalTimeTypeRecord := [rec0],
            TimeZoneDesignation := poolInit.1 }
        Except.ok
          { Version := tzif.V2,
            V2Header :=
              { Version := tzif.V2, Timecnt := ts.length, Typecnt := 1,
                Charcnt := poolInit.1.length },
            V2Data := v2,
            V2Footer := { TZString := strBytes "TODO" } }

/-- Go function compileZone (package tzc): resolve the zone lines; the
error of the resolver is only printed, and an empty resolver result is
the error that aborts this zone; the builder phase follows. -/
def compileZone (f : tzdata.File) (lines : List tzdata.ZoneLine) (fuel : Nat) :
    Res (Except String tzif.Data) :=
  match tzir.Process f lines fuel with
  | Res.timeout => Res.timeout
  | Res.panicked => Res.panicked
  | Res.ret (irzs, _printedErr) =>
    if irzs.isEmpty then Res.ret (Except.error "no zones found")
    else Res.ret (buildZone irzs)

/-- Append a zone line to its group in an association list, keeping
first-appearance order of group names. -/
def upsertGroup (gs : List (String × List tzdata.ZoneLine)) (name : String)
    (l : tzdata.ZoneLine) : List (String × List tzdata.ZoneLine) :=
  match gs with
  | [] => [(name, [l])]
  | (n, ls) :: rest =>
    if n = name then (n, ls ++ [l]) :: rest
    else (n, ls) :: upsertGroup rest name l

/-- The grouping loop of Go function Compile (package tzc): a
non-continuation line starts a new group keyed by its name, every line
joins the group of the last seen name. -/
def groupZonesAux : List tzdata.ZoneLine → String →
    List (String × List tzdata.ZoneLine) → List (String × List tzdata.ZoneLine)
  | [], _, acc => acc
  | l :: rest, lastName, acc =>
    let lastName := if !l.Continuation then l.Name else lastName
    groupZonesAux rest lastName (upsertGroup acc lastName l)

/-- Zone grouping of Go function Compile (package tzc).  Go stores the
groups in a map and later iterates it in unspecified order; the model
fixes first-appearance order.  Every property this development settles
about Compile is order-independent: whichever group comes first, the
compile stops at the first failing group of the iteration order and
names exactly that one group in its error. -/
def groupZones (ls : List tzdata.ZoneLine) : List (String × List tzdata.ZoneLine) :=
  groupZonesAux ls "" []

/-- The zone loop of Go function Compile (package tzc): compile each
group, validate it, and stop at the first group whose compilation or
validation fails, returning only that group's error. -/
def CompileAux (f : tzdata.File) (fuel : Nat) :
    List (String × List tzdata.ZoneLine) → List (String × tzif.Data) →
    Res (Except String (List (String × tzif.Data)))
  | [], acc => Res.ret (Except.ok acc)
  | (name, lines) :: rest, acc =>
    match compileZone f lines fuel with
    | Res.timeout => Res.timeout
    | Res.panicked => Res.panicked
    | Res.ret (Except.error e) =>
      Res.ret (Except.error ("compiling zone " ++ name ++ ": " ++ e))
    | Res.ret (Except.ok z) =>
      match tzif.Validate z with
      | none => Res.panicked
      | some [] => CompileAux f fuel rest (acc ++ [(name, z)])
      | some (_ :: _) =>
        Res.ret (Except.error ("compiling zone " ++ name ++ ": invalid tzif"))

/-- Go function Compile (package tzc): group the zone lines and run the
zone loop.  The result map is modelled as an association list in the
modelled iteration order. -/
def Compile (f : tzdata.File) (fuel : Nat) :
    Res (Except String (List (String × tzif.Data))) :=
  CompileAux f fuel (groupZones f.ZoneLines) []

/-- Whether one zone group compiles and validates cleanly, the success
condition of one iteration of the zone loop. -/
def zoneCompiles (f : tzdata.File) (g : String × List tzdata.ZoneLine) (fuel : Nat) : Prop :=
  ∃ z, compileZone f g.2 fuel = Res.ret (Except.ok z) ∧ tzif.Validate z = some []

/-- The first group of the list that fails to compile or validate,
together with the message of its error; none when every group up to the
first non-returning one succeeds. -/
def firstFailure (f : tzdata.File) (fuel : Nat) :
    List (String × List tzdata.ZoneLine) → Option (String × String)
  | [] => none
  | (name, lines) :: rest =>
    match compileZone f lines fuel with
    | Res.timeout => none
    | Res.panicked => none
    | Res.ret (Except.error e) => some (name, e)
    | Res.ret (Except.ok z) =>
      match tzif.Validate z with
      | none => none
      | some [] => firstFailure f fuel rest
      | some (_ :: _) => some (name, "invalid tzif")

end tzc

namespace tzexpand

/-- Reference cumulative day count of the months before the given month
in the given year, built on the embedded isLeapYear; used only to state
calendar distances. -/
def priorDays (month year : Int) : Int :=
  (if month = 1 then 0
   else if month = 2 then 31
   else if month = 3 then 59
   else if month = 4 then 90
   else if month = 5 then 120
   else if month = 6 then 151
   else if month = 7 then 181
   else if month = 8 then 212
   else if month = 9 then 243
   else if month = 10 then 273
   else if month = 11 then 304
   else 334)
  + (if 2 < month ∧ isLeapYear year then 1 else 0)

/-- Reference proleptic-Gregorian day number (rata die) of a date, used
only to state calendar distances between dates; the floor divisions
agree with the usual formula on the positive years the theorems cover. -/
def rataDie (year month day : Int) : Int :=
  365 * (year - 1) + (year - 1) / 4 - (year - 1) / 100 + (year - 1) / 400
    + priorDays month year + day

end tzexpand

/-- Occurrence instants of the transitions of a resolver result; the
empty list for errors, panics and timeouts. -/
def resOccs (r : Res (Except String tzir.Zone)) : List Int :=
  match r with
  | Res.ret (Except.ok z) => z.Transitions.map (·.Occ)
  | _ => []

/-- Rule line for claim C1: AT is 1:00 wall clock, day January 1. -/
def c1Rule : tzdata.RuleLine :=
  { Name := "Ex", From := 2000, To := 2000, In := 1,
    On := { form := tzdata.DayForm.DayFormDayNum, num := 1 },
    At := { TimeOfDay := 3600000000000, Form := tzdata.TimeForm.WallClock },
    Save := { TimeOfDay := 0, Form := tzdata.TimeForm.StandardTime },
    Letter := "" }

/-- First rule line for claim C2: fires at midnight January 1 with a
four-hour SAVE. -/
def c2Rule1 : tzdata.RuleLine :=
  { Name := "X", From := 2000, To := 2000, In := 1,
    On := { form := tzdata.DayForm.DayFormDayNum, num := 1 },
    At := { TimeOfDay := 0, Form := tzdata.TimeForm.WallClock },
    Save := { TimeOfDay := 14400000000000, Form := tzdata.TimeForm.DaylightSavingTime },
    Letter := "" }

/-- Second rule line for claim C2: fires the same day at 1:00 back to
standard time. -/
def c2Rule2 : tzdata.RuleLine :=
  { Name := "X", From := 2000, To := 2000, In := 1,
    On := { form := tzdata.DayForm.DayFormDayNum, num := 1 },
    At := { TimeOfDay := 3600000000000, Form := tzdata.TimeForm.WallClock },
    Save := { TimeOfDay := 0, Form := tzdata.TimeForm.StandardTime },
    Letter := "" }

/-- Zone line for claim C2: named rule set X, zero standard offset, no
UNTIL. -/
def c2Zone : tzdata.ZoneLine :=
  { Name := "Test", Offset := 0,
    Rules := { Form := tzdata.ZoneRulesForm.ZoneRulesName, Name := "X" },
    Format := "T" }

/-- File for claim C2. -/
def c2File : tzdata.File := { RuleLines := [c2Rule1, c2Rule2], ZoneLines := [c2Zone] }

/-- Rule line for claim C4: applies only in year 9999. -/
def c4Rule : tzdata.RuleLine :=
  { Name := "X", From := 9999, To := 9999, In := 1,
    On := { form := tzdata.DayForm.DayFormDayNum, num := 1 },
    At := { TimeOfDay := 0, Form := tzdata.TimeForm.WallClock },
    Save := { TimeOfDay := 0, Form := tzdata.TimeForm.StandardTime },
    Letter := "" }

/-- Zone line for claim C4: named rule set X with an UNTIL in the far
future (year 20000), so the zone neither expires nor reaches a final
rule set while the walked year is below 20000. -/
def c4Zone : tzdata.ZoneLine :=
  { Name := "Test", Offset := 0,
    Rules := { Form := tzdata.ZoneRulesForm.ZoneRulesName, Name := "X" },
    Format := "T",
    Until := { Defined := true, Parts := 1, Year := 20000 } }

/-- File for claim C4. -/
def c4File : tzdata.File := { RuleLines := [c4Rule], ZoneLines := [c4Zone] }

/-- The transition the C4 walk emits in year 9999. -/
def c4Transition : tzir.Transition :=
  { Rule := c4Rule, UTOccY := 9999, UTOcc := 253370764800, Occ := 253370764800,
    Off := 0, Dst := false, Desig := "T" }

/-- Zone line A for claim C3: refers to a rule set that does not exist. -/
def c3ZoneA : tzdata.ZoneLine :=
  { Name := "A",
    Rules := { Form := tzdata.ZoneRulesForm.ZoneRulesName, Name := "NopeA" },
    Format := "T" }

/-- Zone line B for claim C3: also refers to a missing rule set, so
compiling zone B fails as well. -/
def c3ZoneB : tzdata.ZoneLine :=
  { Name := "B",
    Rules := { Form := tzdata.ZoneRulesForm.ZoneRulesName, Name := "NopeB" },
    Format := "T" }

/-- File for claim C3: two independent zone groups, both failing. -/
def c3File : tzdata.File := { RuleLines := [], ZoneLines := [c3ZoneA, c3ZoneB] }

/-- TZif structure for claim C6 on which Validate panics: charcnt is 1
but the designation array is empty, so the final designation check
indexes position -1. -/
def c6PanicData : tzif.Data :=
  { Version := 0,
    V1Header := { Version := 0, Typecnt := 1, Charcnt := 1 },
    V1Data := { LocalTimeTypeRecord := [{}] } }

/-- A consistent TZif structure used to witness the amended claim C6. -/
def c6GoodData : tzif.Data :=
  { Version := 0,
    V1Header := { Version := 0, Typecnt := 1, Charcnt := 4 },
    V1Data :=
      { LocalTimeTypeRecord := [{}],
        TimeZoneDesignation := [85, 84, 67, 0] } }

/-- Byte pool for claim C7 whose first occurrence of the searched
designation sits at offset 256: 64 copies of the four bytes of a
NUL-terminated AAA followed by a NUL-terminated XY. -/
def c7BigPool : List Nat :=
  (List.replicate 64 [65, 65, 65, 0]).flatten ++ [88, 89, 0]

/-- DayOfMonth applied to the After form, the resolution claim C8 is
about. -/
def afterDate (y m wd n : Int) : Int × Int × Int :=
  tzexpand.DayOfMonth y m { form := tzdata.DayForm.DayFormAfter, num := n, day := wd }

/-- C1: the claim states that the universal-time occurrence of a rule
equals the UNIX seconds of the expanded date at midnight plus the
seconds of AT, 3600 for AT = 1:00.  The code instead passes the total
hours, total minutes and total seconds of AT to FromDateTime, so for
AT = 1:00 it adds 3600 three times: the occurrence lands 10800 seconds
after midnight, not 3600.  This theorem evaluates the embedded code at
the failing input. -/
theorem C1_ruleOccurrenceIn_triples_the_at_seconds :
    tzir.ruleOccurrenceIn c1Rule 2000 = some 946695600
    ∧ unixtime.FromDateTime 2000 1 1 0 0 0 = some 946684800
    ∧ tzir.splitTime c1Rule.At.TimeOfDay = (1, 60, 3600)
    ∧ (946695600 : Int) = 946684800 + 3 * 3600
    ∧ (946695600 : Int) ≠ 946684800 + 3600 :=
  ⟨by decide, by decide, by decide, by decide, by decide⟩

/-- C2: the claim states that every emitted transition list is strictly
increasing in its UT instants.  On a zone with two rules one hour apart
where the first carries a four-hour SAVE, the resolver subtracts the
newly effective offset from the second occurrence and emits the pair
946684800, 946681200, which decreases.  This theorem evaluates the
embedded resolver at the failing input. -/
theorem C2_processZone_emits_decreasing_instants :
    resOccs (tzir.processZone c2File c2Zone 0 5) = [946684800, 946681200]
    ∧ ¬ ((946684800 : Int) < 946681200) :=
  ⟨by decide, by decide⟩

/-- C4: the claim states that the year walk always terminates, with the
safety bound firing once the walked year passes 9999.  The safety check
compares for equality with 9999 after the increment, so a walk that
starts at year 9999 steps over the bound and never returns: with the
UNTIL in year 20000 the zone neither expires nor reaches a final rule
set, and the embedded loop yields a timeout for every fuel value.  The
lemma shows that from any year at or above 10000 the walk runs
forever. -/
theorem c4_loop_timeout (fuel : Nat) : ∀ (y : Int) (irz : tzir.Zone) (off : Int),
    10000 ≤ y → tzir.processZoneLoop c4Zone [c4Rule] irz off y fuel = Res.timeout := by
  induction fuel with
  | zero => intro y irz off hy; rfl
  | succ n ih =>
    intro y irz off hy
    have hars : tzir.activeRules [c4Rule] y = [] := by
      simp only [tzir.activeRules, c4Rule, List.filter]
      have : ¬ ((9999 : Int) ≤ y ∧ y ≤ 9999) := by omega
      simp [this]
    have hy9 : ¬ (y + 1 = 9999) := by omega
    simp only [tzir.processZoneLoop, hars, tzir.processZoneYear, List.mapM_nil,
      tzir.sortByUTOcc, List.foldr_nil, tzir.zoneYearFold, tzir.validForever, c4Zone,
      Option.pure_def, Option.bind_eq_bind, Option.bind_some]
    simp only [List.append_nil, List.find?_nil, Bool.not_true, if_true, if_false,
      Bool.false_eq_true, ite_false, hy9]
    exact ih (y + 1) _ _ (by omega)

/-- C4: the first iteration of the walk, at year 9999 with offset 0,
processes the single active rule without expiring, increments to 10000
past the equality check with 9999, and then never returns. -/
theorem c4_loop_from_9999 (fuel : Nat) (irz : tzir.Zone) :
    tzir.processZoneLoop c4Zone [c4Rule] irz 0 9999 fuel = Res.timeout := by
  cases fuel with
  | zero => rfl
  | succ n =>
    have hars : tzir.activeRules [c4Rule] 9999 = [c4Rule] := by decide
    have hyear : tzir.processZoneYear c4Zone 9999 [c4Rule] 0 =
        some ([c4Transition], 0, false, 0) := by decide
    have hvf : tzir.validForever c4Zone [c4Rule] = false := by decide
    simp only [tzir.processZoneLoop, hars, hyear, hvf, Bool.false_eq_true, if_false]
    norm_num
    exact c4_loop_timeout n 10000 _ 0 (by norm_num)

/-- C4: starting the walk of the C4 zone, whose single rule has FROM at
year 9999, never returns for any fuel: the first iteration processes
year 9999 without expiring, the increment skips the equality check with
9999, and every later year recurses forever. -/
theorem C4_processZone_never_returns (fuel : Nat) :
    tzir.processZone c4File c4Zone 0 fuel = Res.timeout := by
  have hfr : tzir.findRules c4File.RuleLines c4Zone.Rules.Name =
      Except.ok [c4Rule] := by rfl
  have hfy : tzir.firstYear [c4Rule] = 9999 := by decide
  have h0 : tzir.processZone c4File c4Zone 0 fuel =
      tzir.processZoneLoop c4Zone [c4Rule] { Line := c4Zone } 0 9999 fuel := by
    rw [tzir.processZone, if_neg (by decide), if_neg (by decide), hfr]
    show tzir.processZoneLoop c4Zone [c4Rule] { Line := c4Zone } 0
      (tzir.firstYear [c4Rule]) fuel = _
    rw [hfy]
  rw [h0]
  exact c4_loop_from_9999 fuel { Line := c4Zone }

/-- C5: the claim states that whitespace inside double quotes stays in
one field and a sharp inside double quotes does not begin a comment.
The field splitter strips everything from the first sharp character and
splits purely on whitespace, with the quote-aware branch left commented
out, so a quoted field with a space splits in two and a quoted sharp
truncates the line.  This theorem evaluates the embedded splitter at
the failing inputs. -/
theorem C5_splitLine_ignores_quotes :
    tzdata.splitLine "Rule \"a b\" x" = ["Rule", "\"a", "b\"", "x"]
    ∧ tzdata.splitLine "A \"b#c\" d" = ["A", "\"b"] :=
  ⟨by decide, by decide⟩

/-- C6 counterexample: the claim states that Validate always returns
normally.  On a structure whose v1 charcnt is 1 while the designation
array is empty, the final designation check indexes position -1 and Go
panics, embedded as none. -/
theorem C6_Validate_panics_on_empty_designations :
    tzif.Validate c6PanicData = none ∧ c6PanicData.V1Header.Charcnt ≠ 0 :=
  ⟨by decide, by decide⟩

set_option maxRecDepth 4000 in
/-- C7 counterexample: the claim states that appending a designation
that already occurs NUL-terminated returns the existing start index.
The Go function converts the index to uint8, so an occurrence at offset
256 is reported as index 0: the claim fails on a pool longer than 256
bytes. -/
theorem C7_reuse_index_truncated_to_byte :
    tzc.bytesIndex ([88, 89] ++ [0]) c7BigPool = some 256
    ∧ tzc.appendDesignation c7BigPool [88, 89] = (c7BigPool, 0)
    ∧ (0 : Nat) ≠ 256 :=
  ⟨by decide, by decide, by decide⟩

/-- C8 counterexample: the claim states that resolving After(wd, n)
yields a date of weekday wd for every year.  The Zeller implementation
uses Go truncating division, which is off for nonpositive adjusted
years: in year 0, resolving After(Thursday, 29) in February yields
March 1, whose weekday — by the code's own weekday function and in the
real proleptic calendar — is Wednesday, not Thursday. -/
theorem C8_after_weekday_fails_in_year_zero :
    tzexpand.DayOfMonth 0 2 { form := tzdata.DayForm.DayFormAfter, num := 29, day := 4 }
      = (0, 3, 1)
    ∧ tzexpand.calculateDayOfWeek 1 3 0 = 3
    ∧ ((3 : Int) ≠ 4)
    ∧ (1 : Int) ≤ 29 ∧ (29 : Int) ≤ tzexpand.daysInMonth 2 0
    ∧ (0 : Int) ≤ 4 ∧ (4 : Int) ≤ 6 :=
  ⟨by decide, by decide, by decide, by decide, by decide, by decide, by decide⟩

/-- C10: the claim states that FromDateTime performs no out-of-bounds
indexing whenever the month lies in 1..12, for arbitrary integer year,
day, hour, minute and second, and that months outside 1..12 make the
table access fail.  The embedded function returns a value for every
month in range and the panic marker for every month out of range. -/
theorem C10_FromDateTime_total (year month day hour minute second : Int) :
    (1 ≤ month → month ≤ 12 →
      (unixtime.FromDateTime year month day hour minute second).isSome = true)
    ∧ ((month < 1 ∨ 12 < month) →
      unixtime.FromDateTime year month day hour minute second = none) := by
  constructor
  · intro h1 h2
    interval_cases month <;>
      simp [unixtime.FromDateTime, unixtime.daysSinceStartOfYear]
  · intro h
    rcases h with h | h
    · unfold unixtime.FromDateTime
      rw [if_pos (by omega)]
    · unfold unixtime.FromDateTime
      rw [if_neg (by omega)]
      have hnone : unixtime.daysSinceStartOfYear[(month - 1).toNat]? = none := by
        apply List.getElem?_eq_none
        simp only [unixtime.daysSinceStartOfYear, List.length]
        omega
      rw [hnone]

/-- C10 witness: the totality statement applied at month 5 and at
month 0. -/
theorem C10_FromDateTime_total_witness :
    (unixtime.FromDateTime 2000 5 1 0 0 0).isSome = true
    ∧ unixtime.FromDateTime 2000 0 1 0 0 0 = none :=
  ⟨(C10_FromDateTime_total 2000 5 1 0 0 0).1 (by norm_num) (by norm_num),
   (C10_FromDateTime_total 2000 0 1 0 0 0).2 (by norm_num)⟩

/-- C3 counterexample: on a file with two zone groups A and B that both
fail to compile (each refers to a missing rule set), Compile stops at
the first group and returns an error naming only zone A; no map is
produced and zone B is neither compiled nor identified, although
compiling it fails as well.  Go iterates the group map in unspecified
order; under every order the error names exactly one zone. -/
theorem C3_Compile_stops_at_first_failing_zone :
    tzc.Compile c3File 5 = Res.ret (Except.error "compiling zone A: no zones found")
    ∧ tzc.compileZone c3File [c3ZoneB] 5 = Res.ret (Except.error "no zones found")
    ∧ ("compiling zone A: no zones found".toList.contains 'B') = false :=
  ⟨by rfl, by rfl, by decide⟩

/-- C3: the zone loop returns a map exactly when every group compiles
and validates, independent of the accumulator. -/
theorem c3_compileAux_ok_iff (f : tzdata.File) (fuel : Nat) :
    ∀ (gs : List (String × List tzdata.ZoneLine)) (acc : List (String × tzif.Data)),
    (∃ m, tzc.CompileAux f fuel gs acc = Res.ret (Except.ok m)) ↔
      ∀ g ∈ gs, tzc.zoneCompiles f g fuel := by
  intro gs
  induction gs with
  | nil =>
    intro acc
    constructor
    · intro _ g hg
      exact absurd hg (List.not_mem_nil g)
    · intro _
      exact ⟨acc, rfl⟩
  | cons hd rest ih =>
    obtain ⟨name, lines⟩ := hd
    intro acc
    cases hcz : tzc.compileZone f lines fuel with
    | timeout =>
      constructor
      · rintro ⟨m, hm⟩
        simp [tzc.CompileAux, hcz] at hm
      · intro hall
        obtain ⟨z, hz, _⟩ := hall (name, lines) (List.mem_cons_self _ _)
        rw [hcz] at hz
        cases hz
    | panicked =>
      constructor
      · rintro ⟨m, hm⟩
        simp [tzc.CompileAux, hcz] at hm
      · intro hall
        obtain ⟨z, hz, _⟩ := hall (name, lines) (List.mem_cons_self _ _)
        rw [hcz] at hz
        cases hz
    | ret r =>
      cases r with
      | error e =>
        constructor
        · rintro ⟨m, hm⟩
          simp [tzc.CompileAux, hcz] at hm
        · intro hall
          obtain ⟨z, hz, _⟩ := hall (name, lines) (List.mem_cons_self _ _)
          rw [hcz] at hz
          cases hz
      | ok z =>
        cases hv : tzif.Validate z with
        | none =>
          constructor
          · rintro ⟨m, hm⟩
            simp [tzc.CompileAux, hcz, hv] at hm
          · intro hall
            obtain ⟨z2, hz2, hv2⟩ := hall (name, lines) (List.mem_cons_self _ _)
            rw [hcz] at hz2
            cases hz2
            rw [hv] at hv2
            cases hv2
        | some es =>
          cases es with
          | nil =>
            constructor
            · rintro ⟨m, hm⟩ g hg
              rcases List.mem_cons.mp hg with hg | hg
              · subst hg
                exact ⟨z, hcz, hv⟩
              · have hm2 : tzc.CompileAux f fuel rest (acc ++ [(name, z)]) =
                    Res.ret (Except.ok m) := by
                  simpa [tzc.CompileAux, hcz, hv] using hm
                exact ((ih (acc ++ [(name, z)])).mp ⟨m, hm2⟩) g hg
            · intro hall
              obtain ⟨m, hm⟩ := (ih (acc ++ [(name, z)])).mpr
                (fun g hg => hall g (List.mem_cons_of_mem _ hg))
              refine ⟨m, ?_⟩
              simpa [tzc.CompileAux, hcz, hv] using hm
          | cons e es =>
            constructor
            · rintro ⟨m, hm⟩
              simp [tzc.CompileAux, hcz, hv] at hm
            · intro hall
              obtain ⟨z2, hz2, hv2⟩ := hall (name, lines) (List.mem_cons_self _ _)
              rw [hcz] at hz2
              cases hz2
              rw [hv] at hv2
              cases hv2

/-- C3: when a first failing group exists, the zone loop returns its
error, naming exactly that group. -/
theorem c3_compileAux_first_error (f : tzdata.File) (fuel : Nat) :
    ∀ (gs : List (String × List tzdata.ZoneLine)) (acc : List (String × tzif.Data))
      (g : String × String),
    tzc.firstFailure f fuel gs = some g →
    tzc.CompileAux f fuel gs acc =
      Res.ret (Except.error ("compiling zone " ++ g.1 ++ ": " ++ g.2)) := by
  intro gs
  induction gs with
  | nil =>
    intro acc g h
    simp [tzc.firstFailure] at h
  | cons hd rest ih =>
    obtain ⟨name, lines⟩ := hd
    intro acc g h
    cases hcz : tzc.compileZone f lines fuel with
    | timeout => simp [tzc.firstFailure, hcz] at h
    | panicked => simp [tzc.firstFailure, hcz] at h
    | ret r =>
      cases r with
      | error e =>
        have hg : g = (name, e) := by
          have := h
          simp [tzc.firstFailure, hcz] at this
          exact this.symm
        subst hg
        simp [tzc.CompileAux, hcz]
      | ok z =>
        cases hv : tzif.Validate z with
        | none => simp [tzc.firstFailure, hcz, hv] at h
        | some es =>
          cases es with
          | nil =>
            have h2 : tzc.firstFailure f fuel rest = some g := by
              simpa [tzc.firstFailure, hcz, hv] using h
            have := ih (acc ++ [(name, z)]) g h2
            simpa [tzc.CompileAux, hcz, hv] using this
          | cons e es =>
            have hg : g = (name, "invalid tzif") := by
              have := h
              simp [tzc.firstFailure, hcz, hv] at this
              exact this.symm
            subst hg
            simp only [tzc.CompileAux, hcz, hv]
            simp only [String.append_assoc]
            rfl

/-- C3 amended: Compile returns a map exactly when every zone group
compiles and validates; otherwise it aborts at the first failing group
of the iteration order, returning an error that identifies that single
group and its cause, without compiling the remaining groups. -/
theorem C3_Compile_first_error_aborts (f : tzdata.File) (fuel : Nat) :
    ((∃ m, tzc.Compile f fuel = Res.ret (Except.ok m)) ↔
      ∀ g ∈ tzc.groupZones f.ZoneLines, tzc.zoneCompiles f g fuel)
    ∧ ∀ g, tzc.firstFailure f fuel (tzc.groupZones f.ZoneLines) = some g →
        tzc.Compile f fuel =
          Res.ret (Except.error ("compiling zone " ++ g.1 ++ ": " ++ g.2)) :=
  ⟨c3_compileAux_ok_iff f fuel (tzc.groupZones f.ZoneLines) [],
   fun g h => c3_compileAux_first_error f fuel (tzc.groupZones f.ZoneLines) [] g h⟩

/-- C3 witness: the amended statement applied to the two-failing-zones
file, naming zone A alone. -/
theorem C3_Compile_first_error_aborts_witness :
    tzc.Compile c3File 5 =
      Res.ret (Except.error ("compiling zone " ++ "A" ++ ": " ++ "no zones found")) :=
  (C3_Compile_first_error_aborts c3File 5).2 ("A", "no zones found") (by rfl)

/-- C6: under the no-panic precondition on the v1 block, validateV1
returns exactly one error per violated v1 condition. -/
theorem c6_validateV1_eq (d : tzif.Data)
    (h1 : d.V1Header.Charcnt = 0 ∨ d.V1Data.TimeZoneDesignation ≠ []) :
    tzif.validateV1 d = some (tzif.claimViolationsV1 d) := by
  unfold tzif.validateV1 tzif.claimViolationsV1
  rcases h1 with h | h
  · simp [h]
  · cases hl : d.V1Data.TimeZoneDesignation.getLast? with
    | none => exact absurd (List.getLast?_eq_none_iff.mp hl) h
    | some b =>
      by_cases hc : 0 < d.V1Header.Charcnt
      · rw [if_pos hc, hl]
        by_cases hb : b = 0 <;> simp [hb, hl, hc]
      · rw [if_neg hc]
        simp [hc]

/-- C6: under the no-panic precondition on the v2 block, validateV2
returns exactly one error per violated v2 condition. -/
theorem c6_validateV2_eq (d : tzif.Data)
    (h1 : d.V2Header.Charcnt = 0 ∨ d.V2Data.TimeZoneDesignation ≠ []) :
    tzif.validateV2 d = some (tzif.claimViolationsV2 d) := by
  unfold tzif.validateV2 tzif.claimViolationsV2
  rcases h1 with h | h
  · simp [h]
  · cases hl : d.V2Data.TimeZoneDesignation.getLast? with
    | none => exact absurd (List.getLast?_eq_none_iff.mp hl) h
    | some b =>
      by_cases hc : 0 < d.V2Header.Charcnt
      · rw [if_pos hc, hl]
        by_cases hb : b = 0 <;> simp [hb, hl, hc]
      · rw [if_neg hc]
        simp [hc]

/-- C6 amended: for every structure whose designation data is nonempty
wherever the corresponding charcnt is positive (so that the final
designation check cannot panic), Validate returns normally with the
join of one error per violated condition — the conditions of the claim
plus the version-consistency condition and the transition
times-to-types length condition that the code also checks — and its
result is nil exactly when no condition is violated; v2 conditions are
checked only when the version is above V1. -/
theorem C6_Validate_reports_all_violations (d : tzif.Data)
    (h1 : d.V1Header.Charcnt = 0 ∨ d.V1Data.TimeZoneDesignation ≠ [])
    (h2 : tzif.V1 < d.Version → (d.V2Header.Charcnt = 0 ∨ d.V2Data.TimeZoneDesignation ≠ [])) :
    tzif.Validate d = some (tzif.claimViolations d)
    ∧ (tzif.Validate d = some [] ↔ tzif.claimViolations d = []) := by
  have hmain : tzif.Validate d = some (tzif.claimViolations d) := by
    unfold tzif.Validate tzif.claimViolations
    rw [c6_validateV1_eq d h1]
    by_cases hver : tzif.V1 < d.Version
    · simp only [c6_validateV2_eq d (h2 hver)]
      simp [hver, List.append_assoc]
    · simp [hver]
  refine ⟨hmain, ?_⟩
  rw [hmain]
  simp

/-- C6 witness: the amended statement applied to a consistent v1
structure, on which Validate reports no violation. -/
theorem C6_Validate_reports_all_violations_witness :
    tzif.Validate c6GoodData = some (tzif.claimViolations c6GoodData)
    ∧ (tzif.Validate c6GoodData = some [] ↔ tzif.claimViolations c6GoodData = []) :=
  C6_Validate_reports_all_violations c6GoodData (Or.inr (by decide))
    (fun h => absurd h (by decide))

/-- C7 amended: the designation pool behaves as the claim's scenario
states — adding LMT, HST, HDT in order yields the twelve-byte pool with
indices 0, 4 and 8, and a later ST reuses index 5 inside HST without
extending the pool — and in general a designation that already occurs
NUL-terminated leaves the pool unchanged and returns the first
occurrence index reduced to a single byte (modulo 256, the Go uint8
conversion), which is the index itself whenever it is below 256. -/
theorem C7_designation_pool_suffix_reuse :
    (tzc.appendDesignation [] (tzc.strBytes "LMT") = ([76, 77, 84, 0], 0)
    ∧ tzc.appendDesignation [76, 77, 84, 0] (tzc.strBytes "HST")
        = ([76, 77, 84, 0, 72, 83, 84, 0], 4)
    ∧ tzc.appendDesignation [76, 77, 84, 0, 72, 83, 84, 0] (tzc.strBytes "HDT")
        = ([76, 77, 84, 0, 72, 83, 84, 0, 72, 68, 84, 0], 8)
    ∧ tzc.appendDesignation [76, 77, 84, 0, 72, 83, 84, 0, 72, 68, 84, 0] (tzc.strBytes "ST")
        = ([76, 77, 84, 0, 72, 83, 84, 0, 72, 68, 84, 0], 5))
    ∧ ∀ (pool desig : List Nat) (idx : Nat),
        tzc.bytesIndex (desig ++ [0]) pool = some idx →
          (tzc.appendDesignation pool desig).1 = pool
          ∧ (tzc.appendDesignation pool desig).2 = idx % 256
          ∧ (idx < 256 → (tzc.appendDesignation pool desig).2 = idx) := by
  refine ⟨⟨by decide, by decide, by decide, by decide⟩, ?_⟩
  intro pool desig idx h
  unfold tzc.appendDesignation
  rw [h]
  exact ⟨rfl, rfl, fun hlt => by simp [Nat.mod_eq_of_lt hlt]⟩

/-- C7 witness: suffix reuse applied to the pool holding HST alone,
where ST occurs at index 1. -/
theorem C7_designation_pool_suffix_reuse_witness :
    (tzc.appendDesignation [72, 83, 84, 0] [83, 84]).1 = [72, 83, 84, 0]
    ∧ (tzc.appendDesignation [72, 83, 84, 0] [83, 84]).2 = 1 % 256
    ∧ (1 < 256 → (tzc.appendDesignation [72, 83, 84, 0] [83, 84]).2 = 1) :=
  C7_designation_pool_suffix_reuse.2 [72, 83, 84, 0] [83, 84] 1 (by decide)


/-- C8: the composed Go remainder pattern inside the weekday function —
truncating remainder by 7, plus 6, truncating remainder by 7 again —
equals the mathematical residue of x + 6 modulo 7, for every integer. -/
theorem c8_goMod7 (x : Int) : ((x.tmod 7) + 6).tmod 7 = (x + 6) % 7 := by
  have h7 : (0:Int) ≤ 7 := by norm_num
  cases x with
  | ofNat m =>
    have hx : (0:Int) ≤ Int.ofNat m := Int.ofNat_nonneg m
    rw [Int.tmod_eq_emod hx h7]
    have h1 : 0 ≤ (Int.ofNat m) % 7 := Int.emod_nonneg _ (by norm_num)
    rw [Int.tmod_eq_emod (by omega) h7]
    omega
  | negSucc m =>
    have hneg : Int.tmod (Int.negSucc m) 7 = -(((m : Int) + 1) % 7) := by
      simp [Int.tmod]
    have h1 : 0 ≤ ((m : Int) + 1) % 7 := Int.emod_nonneg _ (by norm_num)
    have h2 : ((m : Int) + 1) % 7 < 7 := Int.emod_lt_of_pos _ (by norm_num)
    rw [hneg, Int.tmod_eq_emod (by omega) h7]
    have h3 : Int.negSucc m = -((m : Int) + 1) := by simp [Int.negSucc_eq]
    rw [h3]
    omega

/-- C8: the weekday function is linear in the day argument modulo 7,
for every month and year, because the day enters the Zeller sum
additively. -/
theorem c8_cDow_add (day δ month year : Int) :
    tzexpand.calculateDayOfWeek (day + δ) month year
      = (tzexpand.calculateDayOfWeek day month year + δ) % 7 := by
  unfold tzexpand.calculateDayOfWeek
  by_cases hm : month < 3 <;> simp only [hm, if_true, if_false] <;>
  · rw [c8_goMod7, c8_goMod7]
    omega

/-- C8: the weekday function always lands in 0..6. -/
theorem c8_cDow_range (day month year : Int) :
    0 ≤ tzexpand.calculateDayOfWeek day month year
    ∧ tzexpand.calculateDayOfWeek day month year < 7 := by
  unfold tzexpand.calculateDayOfWeek
  by_cases hm : month < 3 <;> simp only [hm, if_true, if_false] <;>
  · rw [c8_goMod7]
    exact ⟨Int.emod_nonneg _ (by norm_num), Int.emod_lt_of_pos _ (by norm_num)⟩

/-- C8: arithmetic characterization of the embedded leap-year test for
nonnegative years, where Go remainder and mathematical residue agree. -/
theorem c8_isLeapYear_iff (y : Int) (hy : 0 ≤ y) :
    tzexpand.isLeapYear y = true ↔ (y % 4 = 0 ∧ (y % 100 ≠ 0 ∨ y % 400 = 0)) := by
  unfold tzexpand.isLeapYear
  rw [Int.tmod_eq_emod hy (by norm_num), Int.tmod_eq_emod hy (by norm_num),
    Int.tmod_eq_emod hy (by norm_num)]
  simp

/-- C8: stepping over a month boundary preserves the weekday function
for positive years: day t of the following month has the same weekday
value as the virtual day t + daysInMonth of the current month.  For
positive years every truncating division the Zeller code performs acts
on nonnegative operands, so the congruence holds month to month,
including February and the year rollover. -/
theorem c8_cDow_next_month (y m : Int) (hy : 1 ≤ y) (hm1 : 1 ≤ m) (hm2 : m ≤ 12) (t : Int) :
    tzexpand.calculateDayOfWeek (t + tzexpand.daysInMonth m y) m y
      = tzexpand.calculateDayOfWeek t (if m = 12 then 1 else m + 1)
          (if m = 12 then y + 1 else y) := by
  have e1 : (y - 1).tmod 100 = (y - 1) % 100 := Int.tmod_eq_emod (by omega) (by norm_num)
  have e2 : (y - 1).tdiv 100 = (y - 1) / 100 := Int.tdiv_eq_ediv (by omega) (by norm_num)
  have e3 : ((y - 1) % 100).tdiv 4 = ((y - 1) % 100) / 4 :=
    Int.tdiv_eq_ediv (Int.emod_nonneg _ (by norm_num)) (by norm_num)
  have e4 : ((y - 1) / 100).tdiv 4 = ((y - 1) / 100) / 4 :=
    Int.tdiv_eq_ediv (Int.ediv_nonneg (by omega) (by norm_num)) (by norm_num)
  have f1 : y.tmod 100 = y % 100 := Int.tmod_eq_emod (by omega) (by norm_num)
  have f2 : y.tdiv 100 = y / 100 := Int.tdiv_eq_ediv (by omega) (by norm_num)
  have f3 : (y % 100).tdiv 4 = (y % 100) / 4 :=
    Int.tdiv_eq_ediv (Int.emod_nonneg _ (by norm_num)) (by norm_num)
  have f4 : (y / 100).tdiv 4 = (y / 100) / 4 :=
    Int.tdiv_eq_ediv (Int.ediv_nonneg (by omega) (by norm_num)) (by norm_num)
  have g1 : Int.tdiv 52 5 = 10 := by decide
  have g2 : Int.tdiv 65 5 = 13 := by decide
  have g3 : Int.tdiv 78 5 = 15 := by decide
  have g4 : Int.tdiv 91 5 = 18 := by decide
  have g5 : Int.tdiv 104 5 = 20 := by decide
  have g6 : Int.tdiv 117 5 = 23 := by decide
  have g7 : Int.tdiv 130 5 = 26 := by decide
  have g8 : Int.tdiv 143 5 = 28 := by decide
  have g9 : Int.tdiv 156 5 = 31 := by decide
  have g10 : Int.tdiv 169 5 = 33 := by decide
  have g11 : Int.tdiv 182 5 = 36 := by decide
  have g12 : Int.tdiv 195 5 = 39 := by decide
  interval_cases m <;>
    unfold tzexpand.calculateDayOfWeek tzexpand.daysInMonth <;>
    norm_num <;>
    rw [c8_goMod7, c8_goMod7] <;>
    simp only [g1, g2, g3, g4, g5, g6, g7, g8, g9, g10, g11, g12, e1, e2, e3, e4, f1, f2, f3, f4]
  all_goals try omega
  -- remaining goal: February, where the leap test must be split
  by_cases hleap : tzexpand.isLeapYear y = true
  · have hl := (c8_isLeapYear_iff y (by omega)).mp hleap
    simp only [hleap, if_true]
    omega
  · have hl : ¬ (y % 4 = 0 ∧ (y % 100 ≠ 0 ∨ y % 400 = 0)) :=
      fun hh => hleap ((c8_isLeapYear_iff y (by omega)).mpr hh)
    rw [if_neg hleap]
    omega

/-- C8: the reference day numbering advances consistently over a month
boundary: day t of the following month is daysInMonth later than day t
of the current month would be. -/
theorem c8_rataDie_next (y m t : Int) (hy : 1 ≤ y) (hm1 : 1 ≤ m) (hm2 : m ≤ 12) :
    tzexpand.rataDie (if m = 12 then y + 1 else y) (if m = 12 then 1 else m + 1) t
      = tzexpand.rataDie y m (t + tzexpand.daysInMonth m y) := by
  interval_cases m <;>
  · unfold tzexpand.rataDie tzexpand.priorDays tzexpand.daysInMonth
    norm_num
    first
    | omega
    | (split_ifs with h <;>
       first
       | omega
       | (have hl := (c8_isLeapYear_iff y (by omega)).mp h
          omega)
       | (have hl : ¬ (y % 4 = 0 ∧ (y % 100 ≠ 0 ∨ y % 400 = 0)) :=
            fun hh => h ((c8_isLeapYear_iff y (by omega)).mpr hh)
          omega))

/-- C8: within one month the reference day numbering differs by the day
difference. -/
theorem c8_rataDie_same_month (y m a b : Int) :
    tzexpand.rataDie y m a - tzexpand.rataDie y m b = a - b := by
  unfold tzexpand.rataDie
  ring

/-- C8 amended: for every positive year (the counterexample forces the
exclusion of nonpositive years), month 1..12, weekday 0..6 and day
number within the month, resolving After(wd, n) yields a date whose
weekday — measured by the program's own weekday function — is wd and
which lies 0 to 6 calendar days after (y, m, n), possibly in the next
month or year; in particular the two February scenarios of the claim
hold. -/
theorem C8_after_resolves_to_target_weekday :
    (∀ (y m wd n : Int), 1 ≤ y → 1 ≤ m → m ≤ 12 → 0 ≤ wd → wd ≤ 6 →
      1 ≤ n → n ≤ tzexpand.daysInMonth m y →
      tzexpand.calculateDayOfWeek (afterDate y m wd n).2.2 (afterDate y m wd n).2.1
          (afterDate y m wd n).1 = wd
      ∧ 0 ≤ tzexpand.rataDie (afterDate y m wd n).1 (afterDate y m wd n).2.1
            (afterDate y m wd n).2.2 - tzexpand.rataDie y m n
      ∧ tzexpand.rataDie (afterDate y m wd n).1 (afterDate y m wd n).2.1
            (afterDate y m wd n).2.2 - tzexpand.rataDie y m n ≤ 6)
    ∧ afterDate 2020 2 6 28 = (2020, 2, 29)
    ∧ afterDate 2021 2 6 28 = (2021, 3, 6) := by
  refine ⟨?_, by decide, by decide⟩
  intro y m wd n hy hm1 hm2 hwd0 hwd6 hn1 hn2
  have hrange := c8_cDow_range n m y
  simp only [afterDate, tzexpand.DayOfMonth, tzexpand.nextWeekday]
  set dow := tzexpand.calculateDayOfWeek n m y with hdow
  set diff := if wd - dow < 0 then wd - dow + 7 else wd - dow with hdiff
  have hd0 : 0 ≤ diff := by rw [hdiff]; split_ifs <;> omega
  have hd6 : diff ≤ 6 := by rw [hdiff]; split_ifs <;> omega
  have hmod : (dow + diff) % 7 = wd := by
    have : dow + diff = wd ∨ dow + diff = wd + 7 := by
      rw [hdiff]; split_ifs <;> omega
    rcases this with h | h <;> rw [h] <;> omega
  by_cases hov : n + diff > tzexpand.daysInMonth m y
  · simp only [hov, ite_true, if_true]
    by_cases hm12 : m + 1 > 12
    · have hm12' : m = 12 := by omega
      simp only [hm12, ite_true, if_true]
      have hb := c8_cDow_next_month y m hy hm1 hm2 (n + diff - tzexpand.daysInMonth m y)
      rw [if_pos hm12', if_pos hm12'] at hb
      have harg : n + diff - tzexpand.daysInMonth m y + tzexpand.daysInMonth m y
          = n + diff := by ring
      rw [harg] at hb
      have hr := c8_rataDie_next y m (n + diff - tzexpand.daysInMonth m y) hy hm1 hm2
      rw [if_pos hm12', if_pos hm12', harg] at hr
      refine ⟨?_, ?_, ?_⟩
      · rw [← hb, c8_cDow_add n diff m y, ← hdow, hmod]
      · rw [hr, c8_rataDie_same_month]; omega
      · rw [hr, c8_rataDie_same_month]; omega
    · have hm12' : ¬ (m = 12) := by omega
      simp only [hm12, ite_false, if_false]
      have hb := c8_cDow_next_month y m hy hm1 hm2 (n + diff - tzexpand.daysInMonth m y)
      rw [if_neg hm12', if_neg hm12'] at hb
      have harg : n + diff - tzexpand.daysInMonth m y + tzexpand.daysInMonth m y
          = n + diff := by ring
      rw [harg] at hb
      have hr := c8_rataDie_next y m (n + diff - tzexpand.daysInMonth m y) hy hm1 hm2
      rw [if_neg hm12', if_neg hm12', harg] at hr
      refine ⟨?_, ?_, ?_⟩
      · rw [← hb, c8_cDow_add n diff m y, ← hdow, hmod]
      · rw [hr, c8_rataDie_same_month]; omega
      · rw [hr, c8_rataDie_same_month]; omega
  · simp only [hov, ite_false, if_false]
    refine ⟨?_, ?_, ?_⟩
    · rw [c8_cDow_add n diff m y, ← hdow, hmod]
    · rw [c8_rataDie_same_month]; omega
    · rw [c8_rataDie_same_month]; omega

/-- C8 witness: the amended statement applied to February 28, 2021 with
target weekday Saturday. -/
theorem C8_after_resolves_to_target_weekday_witness :
    tzexpand.calculateDayOfWeek (afterDate 2021 2 6 28).2.2 (afterDate 2021 2 6 28).2.1
        (afterDate 2021 2 6 28).1 = 6
    ∧ 0 ≤ tzexpand.rataDie (afterDate 2021 2 6 28).1 (afterDate 2021 2 6 28).2.1
          (afterDate 2021 2 6 28).2.2 - tzexpand.rataDie 2021 2 28
    ∧ tzexpand.rataDie (afterDate 2021 2 6 28).1 (afterDate 2021 2 6 28).2.1
          (afterDate 2021 2 6 28).2.2 - tzexpand.rataDie 2021 2 28 ≤ 6 :=
  C8_after_resolves_to_target_weekday.1 2021 2 6 28 (by norm_num) (by norm_num)
    (by norm_num) (by norm_num) (by norm_num) (by norm_num) (by decide)
